import Mathlib

/-!
# Verification of the HRRR weather page (client URL builders + Netlify proxy relay)

Shallow embedding of the two source files of the repository:

* `src/App.tsx` — the React client: pure URL/filename builders
  (`buildMagFilename`, `buildMagDirectUrl`, `buildMagProxyUrl`), the
  cycle-dependent forecast-hour list (`isExtendedCycle`,
  `listHoursForCycle`), the advance-on-tick / advance-on-next logic, the
  step-back clamp, and the `useEffect` timer lifecycle.
* the Netlify function handler (`mag.js`) — query-parameter defaulting and
  normalization, reconstruction of the direct URL, and the three response
  shapes (success / upstream error / exception).

JavaScript strings are `String`, JS numbers in the modelled fragments are
`Nat` (or `Int` where the code can go below zero), `x.padStart(n, "0")` is
`padStart`, `x.toLowerCase()` is `toLowerStr` (all modelled inputs are
ASCII), and the JS `a || b` defaulting idiom on possibly-missing string
query parameters (falsy on `undefined` and on `""`) is `jsOrDefault`.
The platform's query-string encode/decode round trip is modelled as the
identity on the key/value pairs (the handler receives the decoded
`queryStringParameters`).
-/

namespace HRRR

/-- JS `s.padStart(n, c)`: left-pad `s` with `c` up to length `n`;
strings already at least `n` long are returned unchanged. -/
def padStart (n : Nat) (c : Char) (s : String) : String :=
  if n ≤ s.length then s
  else String.mk (List.replicate (n - s.length) c) ++ s

/-- JS `p.x || d` where `p.x` is a possibly-missing string query parameter:
`undefined` and the empty string are falsy, anything else is itself. -/
def jsOrDefault (v : Option String) (d : String) : String :=
  match v with
  | none => d
  | some s => if s = "" then d else s

/-- JS `s.toLowerCase()` on the ASCII strings this code handles:
character-wise ASCII lowercasing. -/
def toLowerStr (s : String) : String :=
  String.mk (s.data.map Char.toLower)

/-- Module constant `AREA = "conus"` of `App.tsx`. -/
def AREA : String := "conus"

/-- Module constant `PROXY_BASE = "/.netlify/functions/mag"` of `App.tsx`. -/
def PROXY_BASE : String := "/.netlify/functions/mag"

/-- Module constant `MAG_SIZE_SUFFIX = ""` of `App.tsx`. -/
def MAG_SIZE_SUFFIX : String := ""

/-- `buildMagFilename` of `App.tsx`, with the module constant
`MAG_SIZE_SUFFIX` made an explicit last argument (the configuration value
it closes over): `` `${model}_${area}_${fh}_${param}${suffix}.gif` `` with
`fh = String(fhr).padStart(3, "0") + "00"`. -/
def buildMagFilenameWith (model area : String) (fhr : Nat) (param : String)
    (sizeSuffix : String) : String :=
  let fh := padStart 3 '0' (Nat.repr fhr) ++ "00"
  model ++ "_" ++ area ++ "_" ++ fh ++ "_" ++ param ++ sizeSuffix ++ ".gif"

/-- `buildMagFilename` of `App.tsx` exactly as written: the suffix is the
module constant `MAG_SIZE_SUFFIX` (empty). -/
def buildMagFilename (model area : String) (fhr : Nat) (param : String) : String :=
  buildMagFilenameWith model area fhr param MAG_SIZE_SUFFIX

/-- `buildMagDirectUrl` of `App.tsx` with the size suffix explicit:
`` `https://mag.ncep.noaa.gov/data/${model}${cyc}/${file}` `` with
`cyc = String(cycleHour).padStart(2, "0")`. -/
def buildMagDirectUrlWith (model area : String) (cycleHour fhr : Nat)
    (param : String) (sizeSuffix : String) : String :=
  let file := buildMagFilenameWith model area fhr param sizeSuffix
  let cyc := padStart 2 '0' (Nat.repr cycleHour)
  "https://mag.ncep.noaa.gov/data/" ++ model ++ cyc ++ "/" ++ file

/-- `buildMagDirectUrl` of `App.tsx` exactly as written (suffix =
`MAG_SIZE_SUFFIX`).  The `model`/`area` destructuring defaults `"hrrr"` /
`AREA` apply only to absent arguments; every call site in `App.tsx` omits
fields covered by those defaults or passes them explicitly, so the embedded
function takes them as plain arguments. -/
def buildMagDirectUrl (model area : String) (cycleHour fhr : Nat)
    (param : String) : String :=
  buildMagDirectUrlWith model area cycleHour fhr param MAG_SIZE_SUFFIX

/-- The key/value pairs `buildMagProxyUrl` of `App.tsx` hands to
`URLSearchParams`, in source order: `model`, `area`,
`cycle = String(cycleHour).padStart(2, "0")`,
`fhr = String(fhr).padStart(3, "0")`, `param`. -/
def buildMagProxyQuery (model area : String) (cycleHour fhr : Nat)
    (param : String) : List (String × String) :=
  [("model", model),
   ("area", area),
   ("cycle", padStart 2 '0' (Nat.repr cycleHour)),
   ("fhr", padStart 3 '0' (Nat.repr fhr)),
   ("param", param)]

/-- `qs.toString()` modelled as `k=v` pairs joined by `&` (the values the
client produces need no escaping; the platform decode inverts the encode). -/
def serializeQuery (q : List (String × String)) : String :=
  String.intercalate "&" (q.map (fun kv => kv.1 ++ "=" ++ kv.2))

/-- `buildMagProxyUrl` of `App.tsx`:
`` `${PROXY_BASE}?${qs.toString()}` ``. -/
def buildMagProxyUrl (model area : String) (cycleHour fhr : Nat)
    (param : String) : String :=
  PROXY_BASE ++ "?" ++ serializeQuery (buildMagProxyQuery model area cycleHour fhr param)

/-- `isExtendedCycle` of `App.tsx`: `[0, 6, 12, 18].includes(hour)`. -/
def isExtendedCycle (hour : Nat) : Bool :=
  [0, 6, 12, 18].contains hour

/-- `listHoursForCycle` of `App.tsx`:
`Array.from({length: max + 1}, (_, i) => i)` with
`max = isExtendedCycle(hour) ? 48 : 18`, i.e. `[0, 1, …, max]`. -/
def listHoursForCycle (hour : Nat) : List Nat :=
  let mx := if isExtendedCycle hour then 48 else 18
  List.range (mx + 1)

/-- The advance applied by the `useEffect` timer tick in `App.tsx`
(`setFhr((prev) => …)`): look the current hour up in the valid list
(`list.indexOf(prev)`, `none` for JS `-1`); wrap to `list[0]` when absent
or last, else take `list[i + 1]`. -/
def tickNextFhr (cycleHour prev : Nat) : Nat :=
  let list := listHoursForCycle cycleHour
  match list.findIdx? (fun x => x == prev) with
  | none => list.headD 0
  | some i => if i == list.length - 1 then list.headD 0 else list.getD (i + 1) 0

/-- The advance applied by the "Next hour" button's `onClick` in `App.tsx`
(`setFhr((f) => …)`), transcribed from its own site. -/
def clickNextFhr (cycleHour f : Nat) : Nat :=
  let list := listHoursForCycle cycleHour
  match list.findIdx? (fun x => x == f) with
  | none => list.headD 0
  | some i => if i == list.length - 1 then list.headD 0 else list.getD (i + 1) 0

/-- The "Prev hour" button's `onClick` in `App.tsx`:
`setFhr((f) => Math.max(0, f - 1))`, over `Int` so the clamp is visible. -/
def prevFhr (f : Int) : Int :=
  max 0 (f - 1)

/-! ## The Netlify function handler (`mag.js`) -/

/-- `event.queryStringParameters` of the handler: each field is the decoded
value of that query key, or `none` when the key is absent. -/
structure QueryParams where
  model : Option String
  area : Option String
  cycle : Option String
  fhr : Option String
  param : Option String
  size : Option String
deriving DecidableEq, Repr

/-- The six normalized strings the handler computes in its first block. -/
structure NormalizedParams where
  model : String
  area : String
  cycle : String
  fhr : String
  param : String
  size : String
deriving DecidableEq, Repr

/-- Lines 4–9 of the handler:
`model = (p.model || "hrrr").toLowerCase()`,
`area = (p.area || "conus").toLowerCase()`,
`cycle = String(p.cycle || "").padStart(2, "0")`,
`fhr = String(p.fhr || "0").padStart(3, "0")`,
`param = (p.param || "ceiling").toLowerCase()`,
`size = (p.size || "")`. -/
def normalizeParams (p : QueryParams) : NormalizedParams where
  model := toLowerStr (jsOrDefault p.model "hrrr")
  area := toLowerStr (jsOrDefault p.area "conus")
  cycle := padStart 2 '0' (jsOrDefault p.cycle "")
  fhr := padStart 3 '0' (jsOrDefault p.fhr "0")
  param := toLowerStr (jsOrDefault p.param "ceiling")
  size := jsOrDefault p.size ""

/-- The handler's `filename`:
`` `${model}_${area}_${fhr}00_${param}${size}.gif` ``. -/
def handlerFilename (n : NormalizedParams) : String :=
  n.model ++ "_" ++ n.area ++ "_" ++ n.fhr ++ "00_" ++ n.param ++ n.size ++ ".gif"

/-- The handler's `remote` URL:
`` `https://mag.ncep.noaa.gov/data/${model}${cycle}/${filename}` ``. -/
def handlerRemoteUrl (p : QueryParams) : String :=
  let n := normalizeParams p
  "https://mag.ncep.noaa.gov/data/" ++ n.model ++ n.cycle ++ "/" ++ handlerFilename n

/-- Rebuild `queryStringParameters` from a decoded query-pair list
(first occurrence of each key, as the platform does). -/
def paramsOfQuery (q : List (String × String)) : QueryParams where
  model := q.lookup "model"
  area := q.lookup "area"
  cycle := q.lookup "cycle"
  fhr := q.lookup "fhr"
  param := q.lookup "param"
  size := q.lookup "size"

/-! ## Base64 (`buf.toString("base64")` in the handler's success branch) -/

/-- The standard base64 alphabet, index 0–63. -/
def b64Chars : List Char :=
  "ABCDEFGHIJKLMNOPQRSTUVWXYZabcdefghijklmnopqrstuvwxyz0123456789+/".data

/-- The alphabet character for a 6-bit group. -/
def b64Char (n : Nat) : Char :=
  b64Chars.getD n 'A'

/-- The 6-bit group for an alphabet character (0 for foreign characters). -/
def b64Index (c : Char) : Nat :=
  (b64Chars.findIdx? (fun x => x == c)).getD 0

/-- Base64-encode a byte list, three bytes to four characters, `=`-padding
the final partial group — the encoding `Buffer.toString("base64")`
produces. -/
def b64EncodeBytes : List Nat → List Char
  | [] => []
  | [a] =>
    [b64Char (a / 4), b64Char (a % 4 * 16), '=', '=']
  | [a, b] =>
    [b64Char (a / 4), b64Char (a % 4 * 16 + b / 16), b64Char (b % 16 * 4), '=']
  | a :: b :: c :: rest =>
    b64Char (a / 4) :: b64Char (a % 4 * 16 + b / 16) ::
    b64Char (b % 16 * 4 + c / 64) :: b64Char (c % 64) :: b64EncodeBytes rest

/-- Base64-decode a character list, four characters to three bytes, the
`=`-padded final group to one or two. -/
def b64DecodeChars : List Char → List Nat
  | c1 :: c2 :: c3 :: c4 :: rest =>
    if c3 = '=' then
      [b64Index c1 * 4 + b64Index c2 / 16]
    else if c4 = '=' then
      [b64Index c1 * 4 + b64Index c2 / 16,
       b64Index c2 % 16 * 16 + b64Index c3 / 4]
    else
      (b64Index c1 * 4 + b64Index c2 / 16) ::
      (b64Index c2 % 16 * 16 + b64Index c3 / 4) ::
      (b64Index c3 % 4 * 64 + b64Index c4) :: b64DecodeChars rest
  | _ => []

/-! ## The handler's response (lines 14–42 of `mag.js`) -/

/-- Outcome of the handler's single outbound `fetch` of the remote URL:
a 2xx response with its raw bytes (`resp.ok`), a non-success response with
its status and body text, or a thrown failure (already as `String(err)`). -/
inductive FetchOutcome where
  | success (bytes : List Nat)
  | upstreamError (status : Nat) (body : String)
  | thrown (err : String)
deriving DecidableEq, Repr

/-- The object the handler returns: Netlify's `statusCode` / `headers` /
`body` / `isBase64Encoded` shape, absent fields as `[]` / `false`. -/
structure RelayResponse where
  statusCode : Nat
  headers : List (String × String)
  body : String
  isBase64Encoded : Bool
deriving DecidableEq, Repr

/-- The three headers of the handler's success response. -/
def magSuccessHeaders : List (String × String) :=
  [("Content-Type", "image/gif"),
   ("Cache-Control", "public, max-age=300"),
   ("Access-Control-Allow-Origin", "*")]

/-- The handler's response as a function of the fetch outcome:
`!resp.ok` → upstream status with the body text verbatim; success →
200 with the three fixed headers and the base64 body, `isBase64Encoded:
true`; a throw anywhere → 500 with `String(err)` as body. -/
def magHandlerRespond (o : FetchOutcome) : RelayResponse :=
  match o with
  | .success bytes =>
    { statusCode := 200
      headers := magSuccessHeaders
      body := String.mk (b64EncodeBytes bytes)
      isBase64Encoded := true }
  | .upstreamError status body =>
    { statusCode := status, headers := [], body := body, isBase64Encoded := false }
  | .thrown err =>
    { statusCode := 500, headers := [], body := err, isBase64Encoded := false }

/-! ## The `useEffect` timer lifecycle (`App.tsx` lines 145–157)

React's effect semantics for an effect with dependency list
`[playing, speedMs, cycleHour]`: on a render where the dependencies are
unchanged nothing runs; on a render where they changed, the cleanup
returned by the previous effect run (if any) runs first, then the effect
body runs.  The body returns early when `!playing` (registering no
cleanup); otherwise it creates an interval, stores its id in `timerRef`,
and returns a cleanup that clears the interval `timerRef` points at. -/

/-- The effect's dependency list `[playing, speedMs, cycleHour]`. -/
structure EffectDeps where
  playing : Bool
  speedMs : Nat
  cycleHour : Nat
deriving DecidableEq, Repr

/-- State of the timer system across renders: the ids of live intervals,
a fresh-id counter, the `timerRef` mutable ref, whether the previous
effect run registered a cleanup, and the dependency values of that run. -/
structure TimerSys where
  timers : List Nat
  nextId : Nat
  timerRef : Option Nat
  hasCleanup : Bool
  lastDeps : Option EffectDeps
deriving DecidableEq, Repr

/-- Before the first render: no interval, `timerRef.current = null`. -/
def initTimerSys : TimerSys :=
  { timers := [], nextId := 1, timerRef := none, hasCleanup := false, lastDeps := none }

/-- The registered cleanup:
`if (timerRef.current) window.clearInterval(timerRef.current)`. -/
def runCleanup (s : TimerSys) : TimerSys :=
  match s.timerRef with
  | some t => { s with timers := s.timers.erase t }
  | none => s

/-- The effect body run on state `s1`: `if (!playing) return;` registers no
cleanup; otherwise `timerRef.current = window.setInterval(…)` creates a
fresh interval and the returned closure is registered as cleanup. -/
def effectBody (s1 : TimerSys) (d : EffectDeps) : TimerSys :=
  if d.playing then
    { timers := s1.timers ++ [s1.nextId]
      nextId := s1.nextId + 1
      timerRef := some s1.nextId
      hasCleanup := true
      lastDeps := some d }
  else
    { s1 with hasCleanup := false, lastDeps := some d }

/-- One render with dependency values `d`: skip if unchanged, else run the
previous cleanup (when registered) and then the effect body. -/
def renderStep (s : TimerSys) (d : EffectDeps) : TimerSys :=
  if s.lastDeps = some d then s
  else effectBody (if s.hasCleanup then runCleanup s else s) d

/-- The timer system after a sequence of renders from the initial state. -/
def runRenders (ds : List EffectDeps) : TimerSys :=
  ds.foldl renderStep initTimerSys

/-- Invariant tying the cleanup registration to the live intervals: a
registered cleanup's `timerRef` names the one live interval, and with no
registered cleanup no interval is live. -/
def TimerInv (s : TimerSys) : Prop :=
  (s.hasCleanup = true → ∃ t, s.timerRef = some t ∧ s.timers = [t]) ∧
  (s.hasCleanup = false → s.timers = [])

/-! ## Helper lemmas -/

theorem padStart_length (n : Nat) (c : Char) (s : String) :
    (padStart n c s).length = max n s.length := by
  unfold padStart
  split
  · omega
  · rw [String.length_append]
    simp
    omega

theorem padStart_of_ge (n : Nat) (c : Char) (s : String) (h : n ≤ s.length) :
    padStart n c s = s := by
  unfold padStart
  rw [if_pos h]

theorem padStart_padStart (n : Nat) (c : Char) (s : String) :
    padStart n c (padStart n c s) = padStart n c s :=
  padStart_of_ge _ _ _ (by rw [padStart_length]; omega)

theorem padStart_ne_empty (n : Nat) (c : Char) (s : String) (h : 1 ≤ n) :
    padStart n c s ≠ "" := by
  intro he
  have hl := padStart_length n c s
  rw [he] at hl
  have h0 : String.length "" = 0 := rfl
  omega

theorem isExtendedCycle_iff (h : Nat) :
    isExtendedCycle h = true ↔ h = 0 ∨ h = 6 ∨ h = 12 ∨ h = 18 := by
  simp [isExtendedCycle]

/-- No alphabet character is the padding character. -/
theorem b64Char_ne_pad : ∀ n, n < 64 → b64Char n ≠ '=' := by decide

/-- Decoding inverts the alphabet on 6-bit groups. -/
theorem b64Index_b64Char : ∀ n, n < 64 → b64Index (b64Char n) = n := by decide

/-- Decoding a base64 encoding recovers the bytes exactly. -/
theorem b64_roundtrip (bs : List Nat) (h : ∀ x ∈ bs, x < 256) :
    b64DecodeChars (b64EncodeBytes bs) = bs :=
  match bs with
  | [] => rfl
  | [a] => by
    have ha : a < 256 := h a (by simp)
    show b64DecodeChars [b64Char (a / 4), b64Char (a % 4 * 16), '=', '='] = [a]
    rw [b64DecodeChars, if_pos rfl, b64Index_b64Char _ (by omega),
        b64Index_b64Char _ (by omega)]
    have he : a / 4 * 4 + a % 4 * 16 / 16 = a := by omega
    rw [he]
  | [a, b] => by
    have ha : a < 256 := h a (by simp)
    have hb : b < 256 := h b (by simp)
    show b64DecodeChars [b64Char (a / 4), b64Char (a % 4 * 16 + b / 16),
      b64Char (b % 16 * 4), '='] = [a, b]
    rw [b64DecodeChars, if_neg (b64Char_ne_pad _ (by omega)), if_pos rfl,
        b64Index_b64Char _ (by omega), b64Index_b64Char _ (by omega),
        b64Index_b64Char _ (by omega)]
    have h1 : a / 4 * 4 + (a % 4 * 16 + b / 16) / 16 = a := by omega
    have h2 : (a % 4 * 16 + b / 16) % 16 * 16 + b % 16 * 4 / 4 = b := by omega
    rw [h1, h2]
  | a :: b :: c :: rest => by
    have ha : a < 256 := h a (by simp)
    have hb : b < 256 := h b (by simp)
    have hc : c < 256 := h c (by simp)
    have ih := b64_roundtrip rest (fun x hx => h x (by simp [hx]))
    show b64DecodeChars (b64Char (a / 4) :: b64Char (a % 4 * 16 + b / 16) ::
      b64Char (b % 16 * 4 + c / 64) :: b64Char (c % 64) :: b64EncodeBytes rest) =
      a :: b :: c :: rest
    rw [b64DecodeChars, if_neg (b64Char_ne_pad _ (by omega)),
        if_neg (b64Char_ne_pad _ (by omega)),
        b64Index_b64Char _ (by omega), b64Index_b64Char _ (by omega),
        b64Index_b64Char _ (by omega), b64Index_b64Char _ (by omega), ih]
    have h1 : a / 4 * 4 + (a % 4 * 16 + b / 16) / 16 = a := by omega
    have h2 : (a % 4 * 16 + b / 16) % 16 * 16 + (b % 16 * 4 + c / 64) / 4 = b := by omega
    have h3 : (b % 16 * 4 + c / 64) % 4 * 64 + c % 64 = c := by omega
    rw [h1, h2, h3]

/-- The handler's normalization is the identity on a client-built query
whose free string fields are nonempty and already lowercase. -/
theorem normalize_client (model area param : String) (cycleHour fhr : Nat)
    (hm : model ≠ "") (ha : area ≠ "") (hp : param ≠ "")
    (hml : toLowerStr model = model) (hal : toLowerStr area = area)
    (hpl : toLowerStr param = param) :
    normalizeParams ⟨some model, some area, some (padStart 2 '0' (Nat.repr cycleHour)),
      some (padStart 3 '0' (Nat.repr fhr)), some param, none⟩ =
    ⟨model, area, padStart 2 '0' (Nat.repr cycleHour),
     padStart 3 '0' (Nat.repr fhr), param, ""⟩ := by
  simp only [normalizeParams, jsOrDefault, NormalizedParams.mk.injEq]
  rw [if_neg hm, if_neg ha, if_neg hp,
      if_neg (padStart_ne_empty 2 '0' _ (by omega)),
      if_neg (padStart_ne_empty 3 '0' _ (by omega))]
  exact ⟨hml, hal, padStart_padStart .., padStart_padStart .., hpl, trivial⟩

theorem timerInv_init : TimerInv initTimerSys := by
  constructor
  · intro hfalse
    exact absurd hfalse (by simp [initTimerSys])
  · intro _
    rfl

theorem timerInv_step (s : TimerSys) (d : EffectDeps) (h : TimerInv s) :
    TimerInv (renderStep s d) := by
  unfold renderStep
  split
  · exact h
  · have hs1 : (if s.hasCleanup then runCleanup s else s).timers = [] := by
      by_cases hc : s.hasCleanup = true
      · rw [if_pos hc]
        obtain ⟨t, ht, hts⟩ := h.1 hc
        unfold runCleanup
        rw [ht, hts]
        simp
      · rw [if_neg hc]
        exact h.2 (by simpa using hc)
    unfold effectBody
    split
    · constructor
      · intro _
        exact ⟨(if s.hasCleanup then runCleanup s else s).nextId, rfl, by rw [hs1]; rfl⟩
      · intro hfalse
        simp at hfalse
    · constructor
      · intro hfalse
        simp at hfalse
      · intro _
        exact hs1

theorem timerInv_run (ds : List EffectDeps) : TimerInv (runRenders ds) := by
  have key : ∀ (l : List EffectDeps) (s : TimerSys), TimerInv s →
      TimerInv (l.foldl renderStep s) := by
    intro l
    induction l with
    | nil => intro s hs; exact hs
    | cons d rest ih => intro s hs; exact ih _ (timerInv_step s d hs)
  exact key ds initTimerSys timerInv_init

/-! ## Claims -/

/-- C2: for every model, area, cycle hour, forecast hour, parameter and
size suffix, the direct URL is `https://mag.ncep.noaa.gov/data/` followed
by the model name with the 2-digit-padded cycle hour concatenated directly
(no separator), `/`, then the filename
`<model>_<area>_<fhr 3-digit-padded>00_<param><sizeSuffix>.gif`; in
particular the filename of `("hrrr", "conus", 3, "ceiling", "")` is
`hrrr_conus_00300_ceiling.gif` and the direct URL of
`("hrrr", "conus", 12, 3, "ceiling", "")` is
`https://mag.ncep.noaa.gov/data/hrrr12/hrrr_conus_00300_ceiling.gif`. -/
theorem buildMagDirectUrl_shape :
    (∀ (model area : String) (fhr : Nat) (param sizeSuffix : String),
      buildMagFilenameWith model area fhr param sizeSuffix =
        model ++ "_" ++ area ++ "_" ++ padStart 3 '0' (Nat.repr fhr) ++ "00_"
          ++ param ++ sizeSuffix ++ ".gif") ∧
    (∀ (model area : String) (cycleHour fhr : Nat) (param sizeSuffix : String),
      buildMagDirectUrlWith model area cycleHour fhr param sizeSuffix =
        "https://mag.ncep.noaa.gov/data/" ++ model
          ++ padStart 2 '0' (Nat.repr cycleHour) ++ "/"
          ++ buildMagFilenameWith model area fhr param sizeSuffix) ∧
    (∀ (model area : String) (cycleHour fhr : Nat) (param : String),
      buildMagDirectUrl model area cycleHour fhr param =
        buildMagDirectUrlWith model area cycleHour fhr param MAG_SIZE_SUFFIX) ∧
    buildMagFilenameWith "hrrr" "conus" 3 "ceiling" "" = "hrrr_conus_00300_ceiling.gif" ∧
    buildMagFilename "hrrr" "conus" 3 "ceiling" = "hrrr_conus_00300_ceiling.gif" ∧
    buildMagDirectUrl "hrrr" "conus" 12 3 "ceiling" =
      "https://mag.ncep.noaa.gov/data/hrrr12/hrrr_conus_00300_ceiling.gif" := by
  refine ⟨?_, ?_, fun _ _ _ _ _ => rfl, rfl, rfl, rfl⟩
  · intro model area fhr param sizeSuffix
    unfold buildMagFilenameWith
    rw [show ("00_" : String) = "00" ++ "_" from rfl]
    simp only [String.append_assoc]
  · intro model area cycleHour fhr param sizeSuffix
    rfl

/-- C3 counterexample: `buildMagFilename` does not lowercase its inputs —
inputs differing only in letter case produce different, non-lowercase
filenames. -/
theorem buildMagFilename_case_counterexample :
    buildMagFilename "HRRR" "conus" 3 "CEILING" = "HRRR_conus_00300_CEILING.gif" ∧
    buildMagFilename "hrrr" "conus" 3 "ceiling" = "hrrr_conus_00300_ceiling.gif" ∧
    buildMagFilename "HRRR" "conus" 3 "CEILING" ≠
      buildMagFilename "hrrr" "conus" 3 "ceiling" ∧
    toLowerStr "HRRR_conus_00300_CEILING.gif" =
      "hrrr_conus_00300_ceiling.gif" := by
  refine ⟨rfl, rfl, by decide, by decide⟩

/-- C3 (amended): the client's filename builder performs no case coercion —
it composes its string inputs verbatim (only the proxy relay handler
lowercases `model`, `area` and `param`), so uppercase input yields
uppercase output. -/
theorem buildMagFilename_verbatim :
    (∀ (model area : String) (fhr : Nat) (param : String),
      buildMagFilename model area fhr param =
        model ++ "_" ++ area ++ "_" ++ padStart 3 '0' (Nat.repr fhr) ++ "00_"
          ++ param ++ MAG_SIZE_SUFFIX ++ ".gif") ∧
    buildMagFilename "HRRR" "conus" 3 "CEILING" = "HRRR_conus_00300_CEILING.gif" := by
  refine ⟨?_, rfl⟩
  intro model area fhr param
  unfold buildMagFilename buildMagFilenameWith
  rw [show ("00_" : String) = "00" ++ "_" from rfl]
  simp only [String.append_assoc]

/-- C5: the valid forecast-hour list is exactly `0..48` (length 49) for the
extended cycles `{0, 6, 12, 18}` and exactly `0..18` (length 19) for every
other cycle hour; `validForecastHours(0)` has length 49 and
`validForecastHours(3)` has length 19. -/
theorem listHoursForCycle_spec (h : Nat) :
    (isExtendedCycle h = true ↔ h = 0 ∨ h = 6 ∨ h = 12 ∨ h = 18) ∧
    ((h = 0 ∨ h = 6 ∨ h = 12 ∨ h = 18) →
      listHoursForCycle h = List.range 49 ∧
      ∀ x, x ∈ listHoursForCycle h ↔ x ≤ 48) ∧
    (¬(h = 0 ∨ h = 6 ∨ h = 12 ∨ h = 18) →
      listHoursForCycle h = List.range 19 ∧
      ∀ x, x ∈ listHoursForCycle h ↔ x ≤ 18) ∧
    (listHoursForCycle 0).length = 49 ∧
    (listHoursForCycle 3).length = 19 := by
  refine ⟨isExtendedCycle_iff h, ?_, ?_, by decide, by decide⟩
  · intro hext
    have heq : listHoursForCycle h = List.range 49 := by
      unfold listHoursForCycle
      rw [if_pos ((isExtendedCycle_iff h).mpr hext)]
    refine ⟨heq, ?_⟩
    intro x
    rw [heq, List.mem_range]
    omega
  · intro hext
    have heq : listHoursForCycle h = List.range 19 := by
      unfold listHoursForCycle
      rw [if_neg (fun hb => hext ((isExtendedCycle_iff h).mp hb))]
    refine ⟨heq, ?_⟩
    intro x
    rw [heq, List.mem_range]
    omega

/-- C5 witness: the two implications evaluated at cycle hours 0 and 3. -/
theorem listHoursForCycle_spec_witness :
    listHoursForCycle 0 = List.range 49 ∧ listHoursForCycle 3 = List.range 19 :=
  ⟨((listHoursForCycle_spec 0).2.1 (Or.inl rfl)).1,
   ((listHoursForCycle_spec 3).2.2.1 (by decide)).1⟩

/-- C7: the step-back operation is `max(0, f - 1)` — it decreases by 1,
clamps at 0, never goes negative, and from 0 stays at 0. -/
theorem prevFhr_spec (f : Int) :
    prevFhr f = max 0 (f - 1) ∧
    0 ≤ prevFhr f ∧
    (1 ≤ f → prevFhr f = f - 1) ∧
    (f ≤ 0 → prevFhr f = 0) ∧
    prevFhr 0 = 0 := by
  unfold prevFhr
  refine ⟨rfl, ?_, ?_, ?_, rfl⟩
  · omega
  · intro hf
    omega
  · intro hf
    omega

/-- C7 witness: step-back at 5 and the clamp hypothesis at 5. -/
theorem prevFhr_spec_witness : prevFhr 5 = 5 - 1 :=
  (prevFhr_spec 5).2.2.1 (by decide)

/-- C6: the advance operation is identical for the timer tick and the
"Next hour" click; when the current hour is found at a non-last index of
the valid list it moves to the next element, and when it is last or absent
it wraps to the first element, which is 0; advancing from 18 under cycle 3
and from 48 under cycle 0 both wrap to 0, as does advancing from an hour
absent from the list (30 under cycle 3). -/
theorem advanceFhr_spec (cyc f : Nat) :
    tickNextFhr cyc f = clickNextFhr cyc f ∧
    ((listHoursForCycle cyc).findIdx? (fun x => x == f) = none →
      tickNextFhr cyc f = (listHoursForCycle cyc).headD 0) ∧
    (∀ i, (listHoursForCycle cyc).findIdx? (fun x => x == f) = some i →
      (i = (listHoursForCycle cyc).length - 1 →
        tickNextFhr cyc f = (listHoursForCycle cyc).headD 0) ∧
      (i ≠ (listHoursForCycle cyc).length - 1 →
        tickNextFhr cyc f = (listHoursForCycle cyc).getD (i + 1) 0)) ∧
    (listHoursForCycle cyc).headD 0 = 0 ∧
    tickNextFhr 3 18 = 0 ∧ tickNextFhr 0 48 = 0 ∧ tickNextFhr 3 30 = 0 ∧
    clickNextFhr 3 18 = 0 ∧ clickNextFhr 0 48 = 0 ∧ clickNextFhr 3 30 = 0 := by
  refine ⟨rfl, ?_, ?_, ?_, by decide, by decide, by decide, by decide, by decide,
    by decide⟩
  · intro hnone
    simp only [tickNextFhr, hnone]
  · intro i hsome
    constructor
    · intro hlast
      simp only [tickNextFhr, hsome, hlast]
      rw [if_pos (by simp)]
    · intro hlast
      simp only [tickNextFhr, hsome]
      rw [if_neg (by simpa using hlast)]
  · simp only [listHoursForCycle]
    split <;> decide

/-- C6 witness: the found-and-not-last hypothesis discharged at cycle 3,
hour 5 (index 5, list length 19). -/
theorem advanceFhr_spec_witness :
    tickNextFhr 3 5 = (listHoursForCycle 3).getD 6 0 :=
  ((advanceFhr_spec 3 5).2.2.1 5 (by decide)).2 (by decide)

/-- C4 counterexample: the handler does not lowercase the `size`
parameter — `size=BIG` is used as `"BIG"`, not `"big"`. -/
theorem handlerParams_size_counterexample :
    (normalizeParams ⟨none, none, none, none, none, some "BIG"⟩).size = "BIG" ∧
    toLowerStr "BIG" = "big" ∧
    ("BIG" : String) ≠ "big" := by
  refine ⟨rfl, by decide, by decide⟩

/-- C4 (amended): the handler applies the defaults
`model = "hrrr"`, `area = "conus"`, missing `cycle` → `"00"` after
padding, missing `fhr` → `"0"` → `"000"`, `param = "ceiling"`,
`size` empty; it lowercases `model`, `area` and `param` but passes `size`
through unchanged (no lowercasing); it zero-pads `cycle` to 2 and `fhr` to
3 digits as strings, with no numeric range validation — malformed or
out-of-range values at least as wide as the pad width pass through
unchanged. -/
theorem handlerParams_spec :
    normalizeParams ⟨none, none, none, none, none, none⟩ =
      ⟨"hrrr", "conus", "00", "000", "ceiling", ""⟩ ∧
    (∀ (p : QueryParams) (m : String), p.model = some m → m ≠ "" →
      (normalizeParams p).model = toLowerStr m) ∧
    (∀ (p : QueryParams) (a : String), p.area = some a → a ≠ "" →
      (normalizeParams p).area = toLowerStr a) ∧
    (∀ (p : QueryParams) (pr : String), p.param = some pr → pr ≠ "" →
      (normalizeParams p).param = toLowerStr pr) ∧
    (∀ (p : QueryParams) (s : String), p.size = some s → s ≠ "" →
      (normalizeParams p).size = s) ∧
    (∀ (p : QueryParams) (c : String), p.cycle = some c → c ≠ "" →
      (normalizeParams p).cycle = padStart 2 '0' c) ∧
    (∀ (p : QueryParams) (fh : String), p.fhr = some fh → fh ≠ "" →
      (normalizeParams p).fhr = padStart 3 '0' fh) ∧
    (∀ (p : QueryParams) (c : String), p.cycle = some c → 2 ≤ c.length →
      (normalizeParams p).cycle = c) ∧
    (∀ (p : QueryParams) (fh : String), p.fhr = some fh → 3 ≤ fh.length →
      (normalizeParams p).fhr = fh) ∧
    (normalizeParams ⟨none, none, some "banana", some "99999", none, none⟩).cycle =
      "banana" ∧
    (normalizeParams ⟨none, none, some "banana", some "99999", none, none⟩).fhr =
      "99999" := by
  have hne : ∀ t : String, 1 ≤ t.length → t ≠ "" := by
    intro t hlen he
    rw [he] at hlen
    have h0 : String.length "" = 0 := rfl
    omega
  refine ⟨rfl, ?_, ?_, ?_, ?_, ?_, ?_, ?_, ?_, by decide, by decide⟩
  · intro p m hpm hm
    simp only [normalizeParams, hpm, jsOrDefault]
    rw [if_neg hm]
  · intro p a hpa ha
    simp only [normalizeParams, hpa, jsOrDefault]
    rw [if_neg ha]
  · intro p pr hpp hp
    simp only [normalizeParams, hpp, jsOrDefault]
    rw [if_neg hp]
  · intro p s hps hs
    simp only [normalizeParams, hps, jsOrDefault]
    rw [if_neg hs]
  · intro p c hpc hc
    simp only [normalizeParams, hpc, jsOrDefault]
    rw [if_neg hc]
  · intro p fh hpf hf
    simp only [normalizeParams, hpf, jsOrDefault]
    rw [if_neg hf]
  · intro p c hpc hlen
    simp only [normalizeParams, hpc, jsOrDefault]
    rw [if_neg (hne c (by omega)), padStart_of_ge _ _ _ hlen]
  · intro p fh hpf hlen
    simp only [normalizeParams, hpf, jsOrDefault]
    rw [if_neg (hne fh (by omega)), padStart_of_ge _ _ _ hlen]

/-- C4 witness: the size-passthrough and cycle-padding clauses discharged
at a concrete request carrying `size=BIG` and `cycle=7`. -/
theorem handlerParams_spec_witness :
    (normalizeParams ⟨none, none, some "7", none, none, some "BIG"⟩).size = "BIG" ∧
    (normalizeParams ⟨none, none, some "7", none, none, some "BIG"⟩).cycle =
      padStart 2 '0' "7" :=
  ⟨handlerParams_spec.2.2.2.2.1 ⟨none, none, some "7", none, none, some "BIG"⟩
      "BIG" rfl (by decide),
   handlerParams_spec.2.2.2.2.2.1 ⟨none, none, some "7", none, none, some "BIG"⟩
      "7" rfl (by decide)⟩

/-- C10: the client proxy query carries exactly the keys `model`, `area`,
`cycle`, `fhr`, `param` — never `size` — so the relay serves every
client-originated request with the default empty size suffix, while a
configured size suffix lands in the client-side filename (hence in the
direct URL) just before `.gif`. -/
theorem proxyQuery_no_size (model area : String) (cycleHour fhr : Nat)
    (param : String) :
    (buildMagProxyQuery model area cycleHour fhr param).map Prod.fst =
      ["model", "area", "cycle", "fhr", "param"] ∧
    (buildMagProxyQuery model area cycleHour fhr param).lookup "size" = none ∧
    (paramsOfQuery (buildMagProxyQuery model area cycleHour fhr param)).size =
      none ∧
    (normalizeParams (paramsOfQuery
      (buildMagProxyQuery model area cycleHour fhr param))).size = "" ∧
    (∀ sizeSuffix, buildMagFilenameWith model area fhr param sizeSuffix =
      model ++ "_" ++ area ++ "_" ++ padStart 3 '0' (Nat.repr fhr) ++ "00_"
        ++ param ++ sizeSuffix ++ ".gif") ∧
    buildMagProxyUrl model area cycleHour fhr param =
      PROXY_BASE ++ "?" ++
        serializeQuery (buildMagProxyQuery model area cycleHour fhr param) := by
  refine ⟨rfl, rfl, rfl, rfl, ?_, rfl⟩
  intro sizeSuffix
  unfold buildMagFilenameWith
  rw [show ("00_" : String) = "00" ++ "_" from rfl]
  simp only [String.append_assoc]

/-- C1 counterexample: the round trip is not byte-identical for every
tuple — for `model = "HRRR"` the client's direct URL keeps the uppercase
model name while the relay, which lowercases `model`, re-derives the
lowercase URL. -/
theorem roundTrip_counterexample :
    buildMagDirectUrl "HRRR" "conus" 12 3 "ceiling" ≠
      handlerRemoteUrl (paramsOfQuery
        (buildMagProxyQuery "HRRR" "conus" 12 3 "ceiling")) := by
  decide

/-- C1 (amended): for every tuple whose `model`, `area` and `param` are
nonempty and already lowercase (fixed points of lowercasing — true of
every value the UI can send), and any cycle and forecast hour, the direct
URL the relay re-derives from the proxy query equals the client's direct
URL byte for byte. -/
theorem roundTrip_lowercase (model area param : String) (cycleHour fhr : Nat)
    (hm : model ≠ "") (ha : area ≠ "") (hp : param ≠ "")
    (hml : toLowerStr model = model) (hal : toLowerStr area = area)
    (hpl : toLowerStr param = param) :
    handlerRemoteUrl (paramsOfQuery
        (buildMagProxyQuery model area cycleHour fhr param)) =
      buildMagDirectUrl model area cycleHour fhr param := by
  have hq : paramsOfQuery (buildMagProxyQuery model area cycleHour fhr param) =
      ⟨some model, some area, some (padStart 2 '0' (Nat.repr cycleHour)),
       some (padStart 3 '0' (Nat.repr fhr)), some param, none⟩ := rfl
  rw [hq]
  show (let n := normalizeParams _;
    "https://mag.ncep.noaa.gov/data/" ++ n.model ++ n.cycle ++ "/"
      ++ handlerFilename n) = _
  rw [show (normalizeParams ⟨some model, some area,
        some (padStart 2 '0' (Nat.repr cycleHour)),
        some (padStart 3 '0' (Nat.repr fhr)), some param, none⟩) =
      ⟨model, area, padStart 2 '0' (Nat.repr cycleHour),
       padStart 3 '0' (Nat.repr fhr), param, ""⟩ from
    normalize_client model area param cycleHour fhr hm ha hp hml hal hpl]
  simp only [handlerFilename, buildMagDirectUrl, buildMagDirectUrlWith,
    buildMagFilenameWith, MAG_SIZE_SUFFIX]
  rw [show ("00_" : String) = "00" ++ "_" from rfl]
  simp only [String.append_assoc]

/-- C1 witness: the round trip discharged at the lowercase tuple
`("hrrr", "conus", 12, 3, "ceiling")`. -/
theorem roundTrip_lowercase_witness :
    handlerRemoteUrl (paramsOfQuery
        (buildMagProxyQuery "hrrr" "conus" 12 3 "ceiling")) =
      buildMagDirectUrl "hrrr" "conus" 12 3 "ceiling" :=
  roundTrip_lowercase "hrrr" "conus" "ceiling" 12 3 (by decide) (by decide)
    (by decide) (by decide) (by decide) (by decide)

/-- C8: the relay's response is exactly one of three shapes — upstream
success: status 200, the three fixed headers (`Content-Type: image/gif`,
`Cache-Control: public, max-age=300`, `Access-Control-Allow-Origin: *`),
a base64 body that decodes back to exactly the upstream bytes, and the
base64 flag set; upstream non-success: the upstream status with the body
text unchanged and no headers (404/"not found" passes through verbatim);
a thrown failure: status 500 with the failure's string representation as
body. -/
theorem magHandlerRespond_spec (o : FetchOutcome) :
    (∀ bytes, o = .success bytes →
      magHandlerRespond o =
        { statusCode := 200, headers := magSuccessHeaders,
          body := String.mk (b64EncodeBytes bytes), isBase64Encoded := true } ∧
      ((∀ x ∈ bytes, x < 256) →
        b64DecodeChars (String.mk (b64EncodeBytes bytes)).data = bytes)) ∧
    (∀ status body, o = .upstreamError status body →
      magHandlerRespond o =
        { statusCode := status, headers := [], body := body,
          isBase64Encoded := false }) ∧
    (∀ err, o = .thrown err →
      magHandlerRespond o =
        { statusCode := 500, headers := [], body := err,
          isBase64Encoded := false }) ∧
    magHandlerRespond (.upstreamError 404 "not found") =
      { statusCode := 404, headers := [], body := "not found",
        isBase64Encoded := false } := by
  refine ⟨?_, ?_, ?_, rfl⟩
  · intro bytes ho
    subst ho
    exact ⟨rfl, fun hb => b64_roundtrip bytes hb⟩
  · intro status body ho
    subst ho
    rfl
  · intro err ho
    subst ho
    rfl

/-- C8 witness: the success shape and byte round trip discharged at the
concrete upstream bytes `[71, 73, 70, 56]` (ASCII "GIF8"). -/
theorem magHandlerRespond_spec_witness :
    magHandlerRespond (.success [71, 73, 70, 56]) =
      { statusCode := 200, headers := magSuccessHeaders,
        body := String.mk (b64EncodeBytes [71, 73, 70, 56]),
        isBase64Encoded := true } ∧
    b64DecodeChars (String.mk (b64EncodeBytes [71, 73, 70, 56])).data =
      [71, 73, 70, 56] :=
  ⟨((magHandlerRespond_spec (.success [71, 73, 70, 56])).1
      [71, 73, 70, 56] rfl).1,
   ((magHandlerRespond_spec (.success [71, 73, 70, 56])).1
      [71, 73, 70, 56] rfl).2 (by decide)⟩

/-- C9: after any sequence of renders, at most one interval timer is live —
the effect clears the previously registered timer before establishing a
new one whenever `playing`, `speedMs` or `cycleHour` changes — and in
particular two play-starting renders in a row (identical or with a changed
speed) leave exactly one live timer. -/
theorem timer_at_most_one (ds : List EffectDeps) :
    (runRenders ds).timers.length ≤ 1 ∧
    (runRenders [⟨true, 600, 3⟩, ⟨true, 600, 3⟩]).timers.length = 1 ∧
    (runRenders [⟨true, 600, 3⟩, ⟨true, 500, 3⟩]).timers.length = 1 ∧
    (runRenders [⟨true, 600, 3⟩, ⟨false, 600, 3⟩]).timers.length = 0 := by
  refine ⟨?_, by decide, by decide, by decide⟩
  have h := timerInv_run ds
  by_cases hc : (runRenders ds).hasCleanup = true
  · obtain ⟨t, _, hts⟩ := h.1 hc
    rw [hts]
    simp
  · rw [h.2 (by simpa using hc)]
    simp

end HRRR
